import Mathlib

/-!
Shallow embedding of the pokemon-challenge client module: the bounded FIFO
cache, the in-flight request deduplication layer (`getPokemon` / `getMove` /
`activeRequests`), the random-id picker, the round orchestration
(`getTwoRandomPokemons` with its `AbortController` generations), and the
battle-outcome rule from `BattleField.tsx`.

JavaScript `Map` objects preserve insertion order; they are embedded as
association lists (`MapL`), oldest entry first, with `mapGet` / `mapSet` /
`mapDelete` mirroring `Map.get` / `Map.set` / `Map.delete`: `set` on an
existing key overwrites in place keeping the entry's position, a new key is
appended at the end, `keys().next().value` is the head key.

Asynchrony is single-threaded and cooperative: every `async` function body in
the source runs synchronously up to the point where it returns a promise
(there is no `await` before `return request`), so each call is one atomic
step on a global `FetchState`, and each promise settlement (`.then` /
`.catch` callback) is another atomic step. Promises are identified by the
natural number `nextId` at their creation; the `requests` log records one
entry per producer (HTTP request) actually started, so "the producer was
invoked exactly once" is "exactly one entry was appended to `requests`".
-/

/-- Association list in insertion order, oldest first: the embedding of a
JavaScript `Map` with string keys. -/
abbrev MapL (V : Type) := List (String × V)

/-- Embeds `Map.get`: value of the entry for `k`, if any (keys are unique in a real
`Map`, so first match suffices). -/
def mapGet {V : Type} (m : MapL V) (k : String) : Option V :=
  match m with
  | [] => none
  | (k', v) :: rest => if k' = k then some v else mapGet rest k

/-- Embeds `Map.set`: overwrite in place if `k` is present, else append at the end. -/
def mapSet {V : Type} (m : MapL V) (k : String) (v : V) : MapL V :=
  match m with
  | [] => [(k, v)]
  | (k', v') :: rest => if k' = k then (k, v) :: rest else (k', v') :: mapSet rest k v

/-- Embeds `Map.delete`: remove the entry for `k` (the first match; a real `Map` has
at most one). -/
def mapDelete {V : Type} (m : MapL V) (k : String) : MapL V :=
  match m with
  | [] => []
  | (k', v') :: rest => if k' = k then rest else (k', v') :: mapDelete rest k

/-- Number of entries for key `k` (1 or 0 in any reachable state). -/
def countKey {V : Type} (m : MapL V) (k : String) : Nat :=
  (m.filter (fun e => e.1 = k)).length

/-- The `Cache<T>` class: a `Map` plus a `maxSize` fixed at construction. -/
structure Cache (V : Type) where
  maxSize : Nat
  cache : MapL V
deriving Repr, DecidableEq

namespace Cache

/-- Method `get(key)`: pure lookup, no side effect. -/
def get {V : Type} (c : Cache V) (k : String) : Option V :=
  mapGet c.cache k

/-- Method `set(key, value)`: if `size >= maxSize`, delete the first (oldest) key of
the map — whether or not `key` itself is already present — then `Map.set`.
On an empty map `keys().next().value` is `undefined` and the delete is a
no-op. -/
def set {V : Type} (c : Cache V) (k : String) (v : V) : Cache V :=
  let m :=
    if c.maxSize ≤ c.cache.length then
      match c.cache with
      | [] => c.cache
      | (k0, _) :: _ => mapDelete c.cache k0
    else c.cache
  { c with cache := mapSet m k v }

/-- Method `clear()`: remove all entries. -/
def clear {V : Type} (c : Cache V) : Cache V :=
  { c with cache := [] }

end Cache

/-- Iterated `set`, for reasoning about sequences of `set` calls. -/
def setAll {V : Type} (c : Cache V) (kvs : List (String × V)) : Cache V :=
  List.foldl (fun c' kv => c'.set kv.1 kv.2) c kvs

/-- One `{ move: { name, url } }` entry of a pokemon's move list (flattened:
the wrapper object adds nothing). -/
structure MoveRef where
  name : String
  url : String
deriving Repr, DecidableEq

/-- The `Pokemon` record decoded from the entity endpoint. -/
structure Pokemon where
  name : String
  sprite : String
  moves : List MoveRef
deriving Repr, DecidableEq

/-- The `Move` record: `power` is `number | null`. -/
structure Move where
  name : String
  power : Option Int
deriving Repr, DecidableEq

/-- A `(pokemon, move)` pair as produced by a round. -/
structure PokemonWithMove where
  pokemon : Pokemon
  move : Move
deriving Repr, DecidableEq

namespace BATTLE_MESSAGES

/-- The `BATTLE_MESSAGES.DECISIVE_BLOW` template string. -/
def DECISIVE_BLOW (winner move loser : String) : String :=
  winner.toUpper ++ " lands a decisive blow with " ++ move.toUpper ++
    ", knocking out " ++ loser.toUpper ++ "!"

/-- The `BATTLE_MESSAGES.TIE` literal. -/
def TIE : String := "It\x27s a tie! Both Pokemon are evenly matched!"

end BATTLE_MESSAGES

/-- Function `determineBattleOutcome` from `BattleField.tsx`, line by line: both powers
non-null compares them; `power1 === null && power2 !== null` gives the blow
to side 2; `power1 !== null && power2 === null` gives it to side 1; the fall
through (both null) is a tie. -/
def determineBattleOutcome (p1 p2 : PokemonWithMove) : String :=
  match p1.move.power, p2.move.power with
  | some power1, some power2 =>
    if power1 > power2 then
      BATTLE_MESSAGES.DECISIVE_BLOW p1.pokemon.name p1.move.name p2.pokemon.name
    else if power2 > power1 then
      BATTLE_MESSAGES.DECISIVE_BLOW p2.pokemon.name p2.move.name p1.pokemon.name
    else
      BATTLE_MESSAGES.TIE
  | none, some _ =>
    BATTLE_MESSAGES.DECISIVE_BLOW p2.pokemon.name p2.move.name p1.pokemon.name
  | some _, none =>
    BATTLE_MESSAGES.DECISIVE_BLOW p1.pokemon.name p1.move.name p2.pokemon.name
  | none, none =>
    BATTLE_MESSAGES.TIE

/-- What a started producer is: the HTTP request behind a promise. `getPokemon`
starts a GET on the pokemon endpoint for `id`; `getMove` starts a GET on
`url` and will wrap the response for move `name`. -/
inductive ReqKind where
  | pokemonReq : Nat → ReqKind
  | moveReq : String → String → ReqKind
deriving Repr, DecidableEq

/-- The module-level mutable state: `pokemonCache = new Cache<Pokemon>(50)`,
`moveCache = new Cache<Move>(200)`, the shared
`activeRequests = new Map<string, Promise<any>>()` (promises identified by
numeric ids), the log of producers started so far (one entry per HTTP
request actually issued, tagged with its promise id), and the next fresh
promise id. -/
structure FetchState where
  pokemonCache : Cache Pokemon
  moveCache : Cache Move
  activeRequests : MapL Nat
  requests : List (Nat × ReqKind)
  nextId : Nat
deriving Repr, DecidableEq

/-- The state at module load. -/
def initialFetchState : FetchState :=
  { pokemonCache := { maxSize := 50, cache := [] }
    moveCache := { maxSize := 200, cache := [] }
    activeRequests := []
    requests := []
    nextId := 0 }

/-- What a call to `getPokemon` / `getMove` hands its caller: the cached value
directly, or a promise id — either the already-pending one from
`activeRequests` or the freshly created one. -/
inductive CallResult (V : Type) where
  | cachedValue : V → CallResult V
  | pending : Nat → CallResult V
deriving Repr, DecidableEq

/-- Function `getPokemon(id)`: one atomic step (the async body has no `await`; it runs
to `return request` synchronously). Cache hit returns the cached value;
a pending entry in `activeRequests` under `id.toString()` is returned as is;
otherwise the axios GET is started (logged in `requests`), registered under
the key, and its fresh promise id returned. -/
def getPokemon (s : FetchState) (id : Nat) : FetchState × CallResult Pokemon :=
  let cacheKey := toString id
  match s.pokemonCache.get cacheKey with
  | some cached => (s, .cachedValue cached)
  | none =>
    match mapGet s.activeRequests cacheKey with
    | some p => (s, .pending p)
    | none =>
      let pid := s.nextId
      ({ s with
          activeRequests := mapSet s.activeRequests cacheKey pid
          requests := s.requests ++ [(pid, .pokemonReq id)]
          nextId := s.nextId + 1 },
        .pending pid)

/-- The `.then` callback of `getPokemon`'s request settling successfully with
`data`: populate the pokemon cache, drop the in-flight entry. -/
def settlePokemonSuccess (s : FetchState) (id : Nat) (data : Pokemon) : FetchState :=
  let cacheKey := toString id
  { s with
      pokemonCache := s.pokemonCache.set cacheKey data
      activeRequests := mapDelete s.activeRequests cacheKey }

/-- The `.catch` callback of `getPokemon`'s request: drop the in-flight entry
and rethrow — the cache is not touched. -/
def settlePokemonFailure (s : FetchState) (id : Nat) : FetchState :=
  { s with activeRequests := mapDelete s.activeRequests (toString id) }

/-- Function `getMove(url, name)`: same shape as `getPokemon`, keyed by `name` in both
`moveCache` and the shared `activeRequests`. -/
def getMove (s : FetchState) (url name : String) : FetchState × CallResult Move :=
  match s.moveCache.get name with
  | some cached => (s, .cachedValue cached)
  | none =>
    match mapGet s.activeRequests name with
    | some p => (s, .pending p)
    | none =>
      let pid := s.nextId
      ({ s with
          activeRequests := mapSet s.activeRequests name pid
          requests := s.requests ++ [(pid, .moveReq url name)]
          nextId := s.nextId + 1 },
        .pending pid)

/-- The `.then` callback of `getMove`'s request settling with response power
`power`: build `{ name, power }`, populate the move cache, drop the
in-flight entry. -/
def settleMoveSuccess (s : FetchState) (name : String) (power : Option Int) : FetchState :=
  { s with
      moveCache := s.moveCache.set name { name := name, power := power }
      activeRequests := mapDelete s.activeRequests name }

/-- The `.catch` callback of `getMove`'s request: drop the in-flight entry and
rethrow. -/
def settleMoveFailure (s : FetchState) (name : String) : FetchState :=
  { s with activeRequests := mapDelete s.activeRequests name }

/-- Embeds `Set.add` of a JavaScript `Set` kept in insertion order: duplicates are
ignored. -/
def setAdd (ids : List Nat) (x : Nat) : List Nat :=
  if x ∈ ids then ids else ids ++ [x]

/-- Embeds `Math.floor(Math.random() * maxId)`: for `maxId = 0` the draw is always
`0`; otherwise an abstract random draw `r` maps onto `0 .. maxId - 1`. -/
def randomDraw (maxId r : Nat) : Nat :=
  if maxId = 0 then 0 else r % maxId

/-- The `while (ids.size < count)` loop of `getRandomPokemonIds`, run against
a finite stream `randoms` of abstract random draws; `none` means the stream
ran out before the set reached `count` (the JS loop would still be
spinning), `some ids` is `Array.from(ids)` after exit. -/
def randIdsLoop (count maxId : Nat) : List Nat → List Nat → Option (List Nat)
  | ids, [] => if count ≤ ids.length then some ids else none
  | ids, r :: rest =>
    if count ≤ ids.length then some ids
    else randIdsLoop count maxId (setAdd ids (randomDraw maxId r + 1)) rest

/-- Function `getRandomPokemonIds(count, maxId)` with the random source made explicit. -/
def getRandomPokemonIds (count maxId : Nat) (randoms : List Nat) : Option (List Nat) :=
  randIdsLoop count maxId [] randoms

/-- The body of the `[p1, p2].map` inside `getTwoRandomPokemons`, for one
pokemon: either the sentinel pair (zero moves: no `getMove` call is made) or
the `(url, name)` that the round passes to `getMove`; `i` abstracts the
`Math.random()` draw used for the index `Math.floor(i-fraction * length)`. -/
inductive RoundMoveStep where
  | sentinelPair : PokemonWithMove → RoundMoveStep
  | fetchMove : String → String → RoundMoveStep
deriving Repr, DecidableEq

/-- The check `if (p.moves.length === 0)` yields the sentinel pair immediately;
otherwise a random entry of `p.moves` is selected and `getMove` is invoked
on its url and name. -/
def resolveMoveForPokemon (p : Pokemon) (i : Nat) : RoundMoveStep :=
  if p.moves.length = 0 then
    .sentinelPair { pokemon := p, move := { name := "No moves available", power := none } }
  else
    let randomMove := p.moves.getD (i % p.moves.length) { name := "", url := "" }
    .fetchMove randomMove.url randomMove.name

/-- The externally visible React state of `GetRandomPokemon`: `pokemons`,
`loading`, `error`. -/
structure VisibleState where
  pokemons : List PokemonWithMove
  loading : Bool
  error : Option String
deriving Repr, DecidableEq

/-- Component plus module state. `currentRound` numbers the `AbortController`
held in `abortControllerRef`: each `getTwoRandomPokemons` call aborts the
previous controller and installs a fresh one, so the controller of round `r`
has fired its abort signal exactly when a later round exists
(`r < currentRound`, abort being irreversible). -/
structure AppState where
  fetch : FetchState
  visible : VisibleState
  currentRound : Nat
deriving Repr, DecidableEq

/-- Value of `abortController.signal.aborted` for round `r`'s controller. -/
def signalAborted (s : AppState) (r : Nat) : Bool :=
  decide (r < s.currentRound)

/-- The synchronous prefix of `getTwoRandomPokemons`: abort the previous
controller, install a new one, `setLoading(true)`, `setError(null)`.
Returns the new round's number. -/
def startRound (s : AppState) : AppState × Nat :=
  let r := s.currentRound + 1
  ({ s with
      currentRound := r
      visible := { s.visible with loading := true, error := none } },
    r)

/-- The tail of the `try` block: `if (!abortController.signal.aborted)`
publish the round's pairs and clear `loading`; a stale round changes
nothing. -/
def applyRoundSuccess (s : AppState) (r : Nat) (results : List PokemonWithMove) : AppState :=
  if signalAborted s r then s
  else
    { s with
        visible := { s.visible with pokemons := results, loading := false } }

/-- The `catch` block: unless the round is stale, publish the error message,
empty the pair list and clear `loading`. -/
def applyRoundFailure (s : AppState) (r : Nat) (msg : String) : AppState :=
  if signalAborted s r then s
  else
    { s with
        visible := { pokemons := [], loading := false, error := some msg } }

/-- A stale round's `getPokemon` promise settling: the `.then` callback runs
on the module state regardless of any abort signal (the signal is never
passed to axios and never consulted in the callback). -/
def settlePokemonSuccessApp (s : AppState) (id : Nat) (data : Pokemon) : AppState :=
  { s with fetch := settlePokemonSuccess s.fetch id data }

/-! Helper lemmas about the `Map` embedding. -/

theorem mapGet_mapSet_self {V : Type} : ∀ (m : MapL V) (k : String) (v : V),
    mapGet (mapSet m k v) k = some v
  | [], k, v => by simp [mapGet, mapSet]
  | (k', v') :: rest, k, v => by
    by_cases h : k' = k
    · subst h; simp [mapGet, mapSet]
    · simp [mapGet, mapSet, h, mapGet_mapSet_self rest k v]

theorem mapGet_mapSet_ne {V : Type} : ∀ (m : MapL V) (k k' : String) (v : V),
    k' ≠ k → mapGet (mapSet m k v) k' = mapGet m k'
  | [], k, k', v, h => by simp [mapGet, mapSet, Ne.symm h]
  | (k0, v0) :: rest, k, k', v, h => by
    by_cases h0 : k0 = k
    · subst h0
      simp [mapGet, mapSet, Ne.symm h]
    · by_cases h1 : k0 = k'
      · subst h1
        simp [mapGet, mapSet, h0]
      · simp [mapGet, mapSet, h0, h1, mapGet_mapSet_ne rest k k' v h]

theorem mapGet_eq_none_iff {V : Type} : ∀ (m : MapL V) (k : String),
    mapGet m k = none ↔ k ∉ m.map Prod.fst
  | [], k => by simp [mapGet]
  | (k', v') :: rest, k => by
    by_cases h : k' = k
    · subst h; simp [mapGet]
    · simp [mapGet, h, Ne.symm h, mapGet_eq_none_iff rest k]

theorem mapSet_of_fresh {V : Type} : ∀ (m : MapL V) (k : String) (v : V),
    mapGet m k = none → mapSet m k v = m ++ [(k, v)]
  | [], k, v, _ => by simp [mapSet]
  | (k', v') :: rest, k, v, h => by
    by_cases h0 : k' = k
    · subst h0; simp [mapGet] at h
    · simp only [mapGet, if_neg h0] at h
      simp [mapSet, h0, mapSet_of_fresh rest k v h]

theorem mapDelete_mapSet_fresh {V : Type} : ∀ (m : MapL V) (k : String) (v : V),
    mapGet m k = none → mapDelete (mapSet m k v) k = m
  | [], k, v, _ => by simp [mapSet, mapDelete]
  | (k', v') :: rest, k, v, h => by
    by_cases h0 : k' = k
    · subst h0; simp [mapGet] at h
    · simp only [mapGet, if_neg h0] at h
      simp [mapSet, mapDelete, h0, mapDelete_mapSet_fresh rest k v h]

theorem countKey_eq_zero_of_none {V : Type} : ∀ (m : MapL V) (k : String),
    mapGet m k = none → countKey m k = 0
  | [], k, _ => by simp [countKey]
  | (k', v') :: rest, k, h => by
    by_cases h0 : k' = k
    · subst h0; simp [mapGet] at h
    · simp only [mapGet, if_neg h0] at h
      have ih := countKey_eq_zero_of_none rest k h
      simpa [countKey, List.filter_cons, h0] using ih

theorem countKey_mapSet_fresh {V : Type} (m : MapL V) (k : String) (v : V)
    (h : mapGet m k = none) : countKey (mapSet m k v) k = 1 := by
  rw [mapSet_of_fresh m k v h]
  have h0 := countKey_eq_zero_of_none m k h
  simp only [countKey, List.filter_append] at h0 ⊢
  simp [h0]

theorem mapDelete_sublist {V : Type} : ∀ (m : MapL V) (k : String),
    List.Sublist (mapDelete m k) m
  | [], k => by simp [mapDelete]
  | (k', v') :: rest, k => by
    by_cases h0 : k' = k
    · simp only [mapDelete, if_pos h0]
      exact List.sublist_cons_self _ _
    · simp only [mapDelete, if_neg h0]
      exact (mapDelete_sublist rest k).cons₂ _

theorem mem_keys_mapSet {V : Type} : ∀ (m : MapL V) (k a : String) (v : V),
    a ∈ (mapSet m k v).map Prod.fst → a ∈ m.map Prod.fst ∨ a = k
  | [], k, a, v, h => Or.inr (by simpa [mapSet] using h)
  | (k', v') :: rest, k, a, v, h => by
    by_cases h0 : k' = k
    · have e : mapSet ((k', v') :: rest) k v = (k, v) :: rest := by
        simp [mapSet, h0]
      rw [e, List.map_cons, List.mem_cons] at h
      rcases h with h | h
      · exact Or.inr h
      · exact Or.inl (List.mem_cons_of_mem _ h)
    · have e : mapSet ((k', v') :: rest) k v = (k', v') :: mapSet rest k v := by
        simp [mapSet, h0]
      rw [e, List.map_cons, List.mem_cons] at h
      rcases h with h | h
      · exact Or.inl (by simp [h])
      · rcases mem_keys_mapSet rest k a v h with h1 | h1
        · exact Or.inl (List.mem_cons_of_mem _ h1)
        · exact Or.inr h1

theorem keys_nodup_mapSet {V : Type} : ∀ (m : MapL V) (k : String) (v : V),
    (m.map Prod.fst).Nodup → ((mapSet m k v).map Prod.fst).Nodup
  | [], k, v, _ => by simp [mapSet]
  | (k', v') :: rest, k, v, h => by
    simp only [List.map_cons, List.nodup_cons] at h
    by_cases h0 : k' = k
    · have e : mapSet ((k', v') :: rest) k v = (k, v) :: rest := by
        simp [mapSet, h0]
      rw [e, List.map_cons, List.nodup_cons]
      exact ⟨h0 ▸ h.1, h.2⟩
    · have e : mapSet ((k', v') :: rest) k v = (k', v') :: mapSet rest k v := by
        simp [mapSet, h0]
      rw [e, List.map_cons, List.nodup_cons]
      refine ⟨fun hmem => ?_, keys_nodup_mapSet rest k v h.2⟩
      rcases mem_keys_mapSet rest k k' v hmem with h1 | h1
      · exact h.1 h1
      · exact h0 h1

theorem keys_nodup_mapDelete {V : Type} (m : MapL V) (k : String)
    (h : (m.map Prod.fst).Nodup) : ((mapDelete m k).map Prod.fst).Nodup :=
  h.sublist ((mapDelete_sublist m k).map Prod.fst)

/-! Helper lemmas about `Cache` and `setAll`. -/

theorem Cache.get_set_self {V : Type} (c : Cache V) (k : String) (v : V) :
    (c.set k v).get k = some v := by
  unfold Cache.set Cache.get
  by_cases hcap : c.maxSize ≤ c.cache.length
  · cases hc : c.cache with
    | nil => simp [hcap, hc, mapGet_mapSet_self]
    | cons e t => obtain ⟨k0, v0⟩ := e; simp [hcap, hc, mapGet_mapSet_self]
  · simp [hcap, mapGet_mapSet_self]

theorem Cache.maxSize_set {V : Type} (c : Cache V) (k : String) (v : V) :
    (c.set k v).maxSize = c.maxSize := rfl

theorem setAll_cons {V : Type} (c : Cache V) (kv : String × V)
    (kvs : List (String × V)) :
    setAll c (kv :: kvs) = setAll (c.set kv.1 kv.2) kvs := rfl

theorem setAll_cache_drop {V : Type} : ∀ (kvs : List (String × V)) (c : Cache V),
    1 ≤ c.maxSize →
    ((c.cache ++ kvs).map Prod.fst).Nodup →
    c.cache.length ≤ c.maxSize →
    (setAll c kvs).cache = (c.cache ++ kvs).drop (c.cache.length + kvs.length - c.maxSize)
  | [], c, _hN, _hnd, hle => by
    have h0 : c.cache.length - c.maxSize = 0 := by omega
    simp [setAll, h0]
  | (k, v) :: kvs, c, hN, hnd, hle => by
    have hkfresh : k ∉ c.cache.map Prod.fst := by
      rw [List.map_append] at hnd
      have hdisj := (List.nodup_append.1 hnd).2.2
      intro hmem
      exact hdisj hmem (by simp)
    have hget : mapGet c.cache k = none := (mapGet_eq_none_iff _ _).2 hkfresh
    rw [setAll_cons]
    by_cases hcap : c.maxSize ≤ c.cache.length
    · have hlen : c.cache.length = c.maxSize := le_antisymm hle hcap
      cases hc : c.cache with
      | nil => rw [hc] at hlen; simp at hlen; omega
      | cons e t =>
        obtain ⟨k0, v0⟩ := e
        have htl : t.length + 1 = c.maxSize := by
          rw [hc] at hlen; simpa using hlen
        have hkt : mapGet t k = none := by
          apply (mapGet_eq_none_iff _ _).2
          intro hmem
          exact hkfresh (by rw [hc]; simp [hmem])
        have hset : (c.set k v).cache = t ++ [(k, v)] := by
          unfold Cache.set
          rw [if_pos hcap, hc]
          simp only [mapDelete, if_pos rfl]
          exact mapSet_of_fresh t k v hkt
        have hrec := setAll_cache_drop kvs (c.set k v)
          (by rw [Cache.maxSize_set]; exact hN)
          (by
            rw [hset]
            rw [hc] at hnd
            simp only [List.cons_append, List.map_cons, List.nodup_cons] at hnd
            simpa using hnd.2)
          (by
            rw [hset, Cache.maxSize_set]
            simp only [List.length_append, List.length_cons, List.length_nil]
            omega)
        rw [hrec, hset, Cache.maxSize_set]
        have e1 : (t ++ [(k, v)]).length + kvs.length - c.maxSize = kvs.length := by
          simp only [List.length_append, List.length_cons, List.length_nil]
          omega
        have e2 : ((k0, v0) :: t).length + ((k, v) :: kvs).length - c.maxSize =
            kvs.length + 1 := by
          simp only [List.length_cons]
          omega
        rw [e1, e2]
        simp [List.drop_succ_cons]
    · have hset : (c.set k v).cache = c.cache ++ [(k, v)] := by
        unfold Cache.set
        rw [if_neg hcap]
        exact mapSet_of_fresh c.cache k v hget
      have hrec := setAll_cache_drop kvs (c.set k v)
        (by rw [Cache.maxSize_set]; exact hN)
        (by rw [hset]; simpa using hnd)
        (by
          rw [hset, Cache.maxSize_set]
          simp only [List.length_append, List.length_cons, List.length_nil]
          omega)
      rw [hrec, hset, Cache.maxSize_set]
      have e1 : (c.cache ++ [(k, v)]).length + kvs.length - c.maxSize =
          c.cache.length + ((k, v) :: kvs).length - c.maxSize := by
        simp only [List.length_append, List.length_cons, List.length_nil]
        omega
      rw [e1]
      simp

/-! Claim theorems. -/

/-- C2: for every pair of `(pokemon, move)` inputs, `determineBattleOutcome`
gives the decisive-blow message to the strictly higher non-null power (naming
that side's pokemon as winner, its move, and the other as loser), the tie
message to equal non-null powers, the decisive blow to the side WITH a power
when exactly one is null, and the tie message when both are null. -/
theorem determineBattleOutcome_spec (p1 p2 : PokemonWithMove) :
    (∀ w1 w2, p1.move.power = some w1 → p2.move.power = some w2 →
      (w1 > w2 → determineBattleOutcome p1 p2 =
        BATTLE_MESSAGES.DECISIVE_BLOW p1.pokemon.name p1.move.name p2.pokemon.name) ∧
      (w2 > w1 → determineBattleOutcome p1 p2 =
        BATTLE_MESSAGES.DECISIVE_BLOW p2.pokemon.name p2.move.name p1.pokemon.name) ∧
      (w1 = w2 → determineBattleOutcome p1 p2 = BATTLE_MESSAGES.TIE)) ∧
    (p1.move.power = none → ∀ w2, p2.move.power = some w2 →
      determineBattleOutcome p1 p2 =
        BATTLE_MESSAGES.DECISIVE_BLOW p2.pokemon.name p2.move.name p1.pokemon.name) ∧
    (p2.move.power = none → ∀ w1, p1.move.power = some w1 →
      determineBattleOutcome p1 p2 =
        BATTLE_MESSAGES.DECISIVE_BLOW p1.pokemon.name p1.move.name p2.pokemon.name) ∧
    (p1.move.power = none → p2.move.power = none →
      determineBattleOutcome p1 p2 = BATTLE_MESSAGES.TIE) := by
  refine ⟨?_, ?_, ?_, ?_⟩
  · intro w1 w2 h1 h2
    refine ⟨?_, ?_, ?_⟩ <;> intro hcmp <;>
      simp [determineBattleOutcome, h1, h2, hcmp] <;>
      omega
  · intro h1 w2 h2
    simp [determineBattleOutcome, h1, h2]
  · intro h2 w1 h1
    simp [determineBattleOutcome, h1, h2]
  · intro h1 h2
    simp [determineBattleOutcome, h1, h2]

/-- Witness for C2: the spec's four literal scenarios, 80 vs 80 → tie,
80 vs null → side 1 wins, null vs null → tie, 60 vs 90 → side 2 wins naming
side 2's move. -/
theorem determineBattleOutcome_spec_witness :
    determineBattleOutcome
        ⟨⟨"a", "s", []⟩, ⟨"m1", some 80⟩⟩ ⟨⟨"b", "s", []⟩, ⟨"m2", some 80⟩⟩ =
      BATTLE_MESSAGES.TIE ∧
    determineBattleOutcome
        ⟨⟨"a", "s", []⟩, ⟨"m1", some 80⟩⟩ ⟨⟨"b", "s", []⟩, ⟨"m2", none⟩⟩ =
      BATTLE_MESSAGES.DECISIVE_BLOW "a" "m1" "b" ∧
    determineBattleOutcome
        ⟨⟨"a", "s", []⟩, ⟨"m1", none⟩⟩ ⟨⟨"b", "s", []⟩, ⟨"m2", none⟩⟩ =
      BATTLE_MESSAGES.TIE ∧
    determineBattleOutcome
        ⟨⟨"a", "s", []⟩, ⟨"m1", some 60⟩⟩ ⟨⟨"b", "s", []⟩, ⟨"m2", some 90⟩⟩ =
      BATTLE_MESSAGES.DECISIVE_BLOW "b" "m2" "a" :=
  ⟨((determineBattleOutcome_spec _ _).1 80 80 rfl rfl).2.2 rfl,
   (determineBattleOutcome_spec _ _).2.2.1 rfl 80 rfl,
   (determineBattleOutcome_spec _ _).2.2.2 rfl rfl,
   ((determineBattleOutcome_spec _ _).1 60 90 rfl rfl).2.1 (by norm_num)⟩

/-- Counterexample to C3 as stated: three `set` calls on a capacity-2 cache
(more than N = 2 calls) that repeat the key `"a"` leave one entry, not
exactly N = 2. -/
theorem cache_fifo_counterexample :
    2 < ([("a", 1), ("a", 2), ("a", 3)] : List (String × Nat)).length ∧
    (setAll (Cache.mk 2 []) [("a", (1 : Nat)), ("a", 2), ("a", 3)]).cache.length ≠ 2 := by
  decide

/-- C3 amended: for every sequence of more than N `set` calls with pairwise
distinct keys on a cache constructed with capacity N ≥ 1, the cache
afterwards is exactly the newest N insertions in order — so it holds exactly
N entries and the evicted entries are exactly the oldest-inserted ones
(`get` being pure, interleaved `get` calls cannot affect this). -/
theorem cache_fifo (V : Type) (N : Nat) (kvs : List (String × V))
    (hN : 1 ≤ N) (hnd : (kvs.map Prod.fst).Nodup) (hlen : N < kvs.length) :
    (setAll (Cache.mk N []) kvs).cache = kvs.drop (kvs.length - N) ∧
    (setAll (Cache.mk N []) kvs).cache.length = N ∧
    ∀ kv ∈ kvs.take (kvs.length - N), (setAll (Cache.mk N []) kvs).get kv.1 = none := by
  have h := setAll_cache_drop kvs (Cache.mk N []) hN (by simpa using hnd) (by simp)
  simp only at h
  have hcache : (setAll (Cache.mk N []) kvs).cache = kvs.drop (kvs.length - N) := by
    rw [h]; simp
  refine ⟨hcache, ?_, ?_⟩
  · rw [hcache, List.length_drop]
    omega
  · intro kv hkv
    unfold Cache.get
    rw [hcache]
    apply (mapGet_eq_none_iff _ _).2
    have hsplit : kvs.map Prod.fst =
        (kvs.take (kvs.length - N)).map Prod.fst ++
          (kvs.drop (kvs.length - N)).map Prod.fst := by
      rw [← List.map_append, List.take_append_drop]
    rw [hsplit] at hnd
    have hdisj := (List.nodup_append.1 hnd).2.2
    intro hmem
    exact hdisj (List.mem_map_of_mem Prod.fst hkv) hmem

/-- Witness for C3 amended: capacity 1, two distinct-key sets; only the newer
entry survives and the older key now misses. -/
theorem cache_fifo_witness :
    (setAll (Cache.mk 1 []) [("a", (0 : Nat)), ("b", 1)]).cache =
      ([("a", (0 : Nat)), ("b", 1)]).drop (([("a", (0 : Nat)), ("b", 1)]).length - 1) ∧
    (setAll (Cache.mk 1 []) [("a", (0 : Nat)), ("b", 1)]).cache.length = 1 ∧
    ∀ kv ∈ ([("a", (0 : Nat)), ("b", 1)]).take (([("a", (0 : Nat)), ("b", 1)]).length - 1),
      (setAll (Cache.mk 1 []) [("a", (0 : Nat)), ("b", 1)]).get kv.1 = none :=
  cache_fifo Nat 1 [("a", 0), ("b", 1)] (by decide) (by decide) (by decide)

/-- Counterexample to C4 as stated: on a capacity-2 cache holding `a` and
`b`, setting the already-present key `b` still evicts the oldest entry `a`
(the code checks capacity before, and regardless of, key presence). -/
theorem cache_set_counterexample :
    Cache.get (Cache.mk 2 [("a", (1 : Nat)), ("b", 2)]) "b" = some 2 ∧
    Cache.get (Cache.set (Cache.mk 2 [("a", (1 : Nat)), ("b", 2)]) "b" 3) "b" = some 3 ∧
    Cache.get (Cache.set (Cache.mk 2 [("a", (1 : Nat)), ("b", 2)]) "b" 3) "a" = none := by
  decide

/-- C4 amended: `set` always stores the new value under the key; below
capacity it removes no other entry (whether or not the key exists); at
capacity it evicts the oldest entry whenever one exists and differs from the
key being set — regardless of whether that key is already present. -/
theorem cache_set_eviction (V : Type) (c : Cache V) (k : String) (v : V) :
    ((c.set k v).get k = some v) ∧
    (c.cache.length < c.maxSize →
      ∀ k', k' ≠ k → (c.set k v).get k' = c.get k') ∧
    (∀ k0 v0 t, c.cache = (k0, v0) :: t → c.maxSize ≤ c.cache.length →
      (c.cache.map Prod.fst).Nodup → k ≠ k0 →
      (c.set k v).get k0 = none) := by
  refine ⟨Cache.get_set_self c k v, ?_, ?_⟩
  · intro hlt k' hne
    unfold Cache.set Cache.get
    rw [if_neg (by omega)]
    exact mapGet_mapSet_ne c.cache k k' v hne
  · intro k0 v0 t hc hcap hnd hne
    have hset : (c.set k v).cache = mapSet t k v := by
      unfold Cache.set
      rw [if_pos hcap, hc]
      simp [mapDelete]
    unfold Cache.get
    rw [hset, mapGet_mapSet_ne t k k0 v (Ne.symm hne)]
    apply (mapGet_eq_none_iff t k0).2
    rw [hc] at hnd
    exact (List.nodup_cons.1 (by simpa using hnd)).1

/-- Witness for C4 amended: setting the fresh key `c` on a full capacity-2
cache stores `c` and evicts the oldest key `a`. -/
theorem cache_set_eviction_witness :
    (Cache.set (Cache.mk 2 [("a", (1 : Nat)), ("b", 2)]) "c" 7).get "c" = some 7 ∧
    (Cache.set (Cache.mk 2 [("a", (1 : Nat)), ("b", 2)]) "c" 7).get "a" = none :=
  ⟨(cache_set_eviction Nat (Cache.mk 2 [("a", 1), ("b", 2)]) "c" 7).1,
   (cache_set_eviction Nat (Cache.mk 2 [("a", 1), ("b", 2)]) "c" 7).2.2
     "a" 1 [("b", 2)] rfl (by decide) (by decide) (by decide)⟩

/-- C6: a key already present in the backing cache makes `getPokemon`
(keyed by the decimal id) / `getMove` (keyed by the move name) return the
cached value with the state untouched — no producer entry is logged and no
in-flight entry is created. -/
theorem cache_hit_no_request :
    (∀ (s : FetchState) (id : Nat) (p : Pokemon),
      s.pokemonCache.get (toString id) = some p →
      getPokemon s id = (s, .cachedValue p)) ∧
    (∀ (s : FetchState) (url name : String) (mv : Move),
      s.moveCache.get name = some mv →
      getMove s url name = (s, .cachedValue mv)) := by
  constructor
  · intro s id p h
    simp [getPokemon, h]
  · intro s url name mv h
    simp [getMove, h]

/-- Witness for C6: with pokemon 1 and move "pound" cached, both calls return
the cached records and change nothing. -/
theorem cache_hit_no_request_witness :
    getPokemon
        ⟨⟨50, [("1", ⟨"bulbasaur", "sp", []⟩)]⟩, ⟨200, [("pound", ⟨"pound", some 40⟩)]⟩,
          [], [], 0⟩ 1 =
      (⟨⟨50, [("1", ⟨"bulbasaur", "sp", []⟩)]⟩, ⟨200, [("pound", ⟨"pound", some 40⟩)]⟩,
          [], [], 0⟩, .cachedValue ⟨"bulbasaur", "sp", []⟩) ∧
    getMove
        ⟨⟨50, [("1", ⟨"bulbasaur", "sp", []⟩)]⟩, ⟨200, [("pound", ⟨"pound", some 40⟩)]⟩,
          [], [], 0⟩ "u" "pound" =
      (⟨⟨50, [("1", ⟨"bulbasaur", "sp", []⟩)]⟩, ⟨200, [("pound", ⟨"pound", some 40⟩)]⟩,
          [], [], 0⟩, .cachedValue ⟨"pound", some 40⟩) :=
  ⟨cache_hit_no_request.1 _ 1 _ (by decide),
   cache_hit_no_request.2 _ "u" "pound" _ (by decide)⟩

/-- C1: from any state where key k misses both cache and in-flight registry,
two calls for k before the first settles (getPokemon by id, getMove by
name — the second move caller may even pass a different url) hand both
callers the same pending promise, log exactly one producer invocation, and
leave exactly one in-flight entry for k; moreover every step of the module
preserves key-uniqueness of the registry, so there is at most one
in-flight entry per key at any time. -/
theorem single_flight :
    (∀ (s : FetchState) (id : Nat),
      s.pokemonCache.get (toString id) = none →
      mapGet s.activeRequests (toString id) = none →
      (getPokemon s id).2 = .pending s.nextId ∧
      (getPokemon (getPokemon s id).1 id).2 = .pending s.nextId ∧
      (getPokemon (getPokemon s id).1 id).1 = (getPokemon s id).1 ∧
      (getPokemon (getPokemon s id).1 id).1.requests =
        s.requests ++ [(s.nextId, .pokemonReq id)] ∧
      countKey (getPokemon (getPokemon s id).1 id).1.activeRequests (toString id) = 1) ∧
    (∀ (s : FetchState) (url url2 name : String),
      s.moveCache.get name = none →
      mapGet s.activeRequests name = none →
      (getMove s url name).2 = .pending s.nextId ∧
      (getMove (getMove s url name).1 url2 name).2 = .pending s.nextId ∧
      (getMove (getMove s url name).1 url2 name).1 = (getMove s url name).1 ∧
      (getMove (getMove s url name).1 url2 name).1.requests =
        s.requests ++ [(s.nextId, .moveReq url name)] ∧
      countKey (getMove (getMove s url name).1 url2 name).1.activeRequests name = 1) ∧
    (∀ s : FetchState, (s.activeRequests.map Prod.fst).Nodup →
      (∀ id, ((getPokemon s id).1.activeRequests.map Prod.fst).Nodup) ∧
      (∀ url name, ((getMove s url name).1.activeRequests.map Prod.fst).Nodup) ∧
      (∀ id data, ((settlePokemonSuccess s id data).activeRequests.map Prod.fst).Nodup) ∧
      (∀ id, ((settlePokemonFailure s id).activeRequests.map Prod.fst).Nodup) ∧
      (∀ name power, ((settleMoveSuccess s name power).activeRequests.map Prod.fst).Nodup) ∧
      (∀ name, ((settleMoveFailure s name).activeRequests.map Prod.fst).Nodup)) := by
  refine ⟨?_, ?_, ?_⟩
  · intro s id h1 h2
    have e : getPokemon s id =
        (⟨s.pokemonCache, s.moveCache,
          mapSet s.activeRequests (toString id) s.nextId,
          s.requests ++ [(s.nextId, .pokemonReq id)], s.nextId + 1⟩,
          .pending s.nextId) := by
      simp [getPokemon, h1, h2]
    have e2 : getPokemon (getPokemon s id).1 id = ((getPokemon s id).1, .pending s.nextId) := by
      rw [e]
      simp [getPokemon, h1, mapGet_mapSet_self]
    refine ⟨?_, ?_, ?_, ?_, ?_⟩
    · rw [e]
    · rw [e2]
    · rw [e2]
    · rw [e2, e]
    · rw [e2, e]
      exact countKey_mapSet_fresh s.activeRequests (toString id) s.nextId h2
  · intro s url url2 name h1 h2
    have e : getMove s url name =
        (⟨s.pokemonCache, s.moveCache,
          mapSet s.activeRequests name s.nextId,
          s.requests ++ [(s.nextId, .moveReq url name)], s.nextId + 1⟩,
          .pending s.nextId) := by
      simp [getMove, h1, h2]
    have e2 : getMove (getMove s url name).1 url2 name =
        ((getMove s url name).1, .pending s.nextId) := by
      rw [e]
      simp [getMove, h1, mapGet_mapSet_self]
    refine ⟨?_, ?_, ?_, ?_, ?_⟩
    · rw [e]
    · rw [e2]
    · rw [e2]
    · rw [e2, e]
    · rw [e2, e]
      exact countKey_mapSet_fresh s.activeRequests name s.nextId h2
  · intro s hnd
    refine ⟨?_, ?_, ?_, ?_, ?_, ?_⟩
    · intro id
      cases hg : s.pokemonCache.get (toString id) with
      | some p => simp [getPokemon, hg]; exact hnd
      | none =>
        cases ha : mapGet s.activeRequests (toString id) with
        | some q => simp [getPokemon, hg, ha]; exact hnd
        | none =>
          simp only [getPokemon, hg, ha]
          exact keys_nodup_mapSet _ _ _ hnd
    · intro url name
      cases hg : s.moveCache.get name with
      | some mv => simp [getMove, hg]; exact hnd
      | none =>
        cases ha : mapGet s.activeRequests name with
        | some q => simp [getMove, hg, ha]; exact hnd
        | none =>
          simp only [getMove, hg, ha]
          exact keys_nodup_mapSet _ _ _ hnd
    · intro id data
      exact keys_nodup_mapDelete _ _ hnd
    · intro id
      exact keys_nodup_mapDelete _ _ hnd
    · intro name power
      exact keys_nodup_mapDelete _ _ hnd
    · intro name
      exact keys_nodup_mapDelete _ _ hnd

/-- Witness for C1: from the fresh module state, two `getPokemon 25` calls
both receive promise 0, one producer is logged, one in-flight entry exists. -/
theorem single_flight_witness :
    (getPokemon initialFetchState 25).2 = .pending 0 ∧
    (getPokemon (getPokemon initialFetchState 25).1 25).2 = .pending 0 ∧
    (getPokemon (getPokemon initialFetchState 25).1 25).1 =
      (getPokemon initialFetchState 25).1 ∧
    (getPokemon (getPokemon initialFetchState 25).1 25).1.requests =
      ([] : List (Nat × ReqKind)) ++ [(0, .pokemonReq 25)] ∧
    countKey (getPokemon (getPokemon initialFetchState 25).1 25).1.activeRequests
      (toString 25) = 1 :=
  single_flight.1 initialFetchState 25 (by decide) (by decide)

/-- C5: when the producer started for key k fails, every waiter held the one
identical promise (so they observe the identical rejection), the `.catch`
handler removes the in-flight entry and leaves the cache untouched (the
registry even returns to exactly its prior state), and a subsequent call for
k starts the producer again. Stated for `getPokemon` and `getMove` alike. -/
theorem failure_not_cached :
    (∀ (s : FetchState) (id : Nat),
      s.pokemonCache.get (toString id) = none →
      mapGet s.activeRequests (toString id) = none →
      (getPokemon s id).2 = .pending s.nextId ∧
      (getPokemon (getPokemon s id).1 id).2 = .pending s.nextId ∧
      (settlePokemonFailure (getPokemon s id).1 id).pokemonCache = s.pokemonCache ∧
      (settlePokemonFailure (getPokemon s id).1 id).activeRequests = s.activeRequests ∧
      mapGet (settlePokemonFailure (getPokemon s id).1 id).activeRequests
        (toString id) = none ∧
      (getPokemon (settlePokemonFailure (getPokemon s id).1 id) id).2 =
        .pending (settlePokemonFailure (getPokemon s id).1 id).nextId ∧
      (getPokemon (settlePokemonFailure (getPokemon s id).1 id) id).1.requests =
        (settlePokemonFailure (getPokemon s id).1 id).requests ++
          [((settlePokemonFailure (getPokemon s id).1 id).nextId, .pokemonReq id)]) ∧
    (∀ (s : FetchState) (url url2 : String) (name : String),
      s.moveCache.get name = none →
      mapGet s.activeRequests name = none →
      (getMove s url name).2 = .pending s.nextId ∧
      (getMove (getMove s url name).1 url2 name).2 = .pending s.nextId ∧
      (settleMoveFailure (getMove s url name).1 name).moveCache = s.moveCache ∧
      (settleMoveFailure (getMove s url name).1 name).activeRequests = s.activeRequests ∧
      mapGet (settleMoveFailure (getMove s url name).1 name).activeRequests name = none ∧
      (getMove (settleMoveFailure (getMove s url name).1 name) url2 name).2 =
        .pending (settleMoveFailure (getMove s url name).1 name).nextId ∧
      (getMove (settleMoveFailure (getMove s url name).1 name) url2 name).1.requests =
        (settleMoveFailure (getMove s url name).1 name).requests ++
          [((settleMoveFailure (getMove s url name).1 name).nextId,
            .moveReq url2 name)]) := by
  constructor
  · intro s id h1 h2
    have e : getPokemon s id =
        (⟨s.pokemonCache, s.moveCache,
          mapSet s.activeRequests (toString id) s.nextId,
          s.requests ++ [(s.nextId, .pokemonReq id)], s.nextId + 1⟩,
          .pending s.nextId) := by
      simp [getPokemon, h1, h2]
    have e2 : getPokemon (getPokemon s id).1 id = ((getPokemon s id).1, .pending s.nextId) := by
      rw [e]
      simp [getPokemon, h1, mapGet_mapSet_self]
    have eF : settlePokemonFailure (getPokemon s id).1 id =
        ⟨s.pokemonCache, s.moveCache, s.activeRequests,
          s.requests ++ [(s.nextId, .pokemonReq id)], s.nextId + 1⟩ := by
      rw [e]
      simp [settlePokemonFailure, mapDelete_mapSet_fresh s.activeRequests (toString id) s.nextId h2]
    have e3 : getPokemon (settlePokemonFailure (getPokemon s id).1 id) id =
        (⟨s.pokemonCache, s.moveCache,
          mapSet s.activeRequests (toString id) (s.nextId + 1),
          (s.requests ++ [(s.nextId, .pokemonReq id)]) ++ [(s.nextId + 1, .pokemonReq id)],
          s.nextId + 2⟩,
          .pending (s.nextId + 1)) := by
      rw [eF]
      simp [getPokemon, h1, h2]
    refine ⟨?_, ?_, ?_, ?_, ?_, ?_, ?_⟩
    · rw [e]
    · rw [e2]
    · rw [eF]
    · rw [eF]
    · rw [eF]; exact h2
    · rw [e3, eF]
    · rw [e3, eF]
  · intro s url url2 name h1 h2
    have e : getMove s url name =
        (⟨s.pokemonCache, s.moveCache,
          mapSet s.activeRequests name s.nextId,
          s.requests ++ [(s.nextId, .moveReq url name)], s.nextId + 1⟩,
          .pending s.nextId) := by
      simp [getMove, h1, h2]
    have e2 : getMove (getMove s url name).1 url2 name =
        ((getMove s url name).1, .pending s.nextId) := by
      rw [e]
      simp [getMove, h1, mapGet_mapSet_self]
    have eF : settleMoveFailure (getMove s url name).1 name =
        ⟨s.pokemonCache, s.moveCache, s.activeRequests,
          s.requests ++ [(s.nextId, .moveReq url name)], s.nextId + 1⟩ := by
      rw [e]
      simp [settleMoveFailure, mapDelete_mapSet_fresh s.activeRequests name s.nextId h2]
    have e3 : getMove (settleMoveFailure (getMove s url name).1 name) url2 name =
        (⟨s.pokemonCache, s.moveCache,
          mapSet s.activeRequests name (s.nextId + 1),
          (s.requests ++ [(s.nextId, .moveReq url name)]) ++
            [(s.nextId + 1, .moveReq url2 name)],
          s.nextId + 2⟩,
          .pending (s.nextId + 1)) := by
      rw [eF]
      simp [getMove, h1, h2]
    refine ⟨?_, ?_, ?_, ?_, ?_, ?_, ?_⟩
    · rw [e]
    · rw [e2]
    · rw [eF]
    · rw [eF]
    · rw [eF]; exact h2
    · rw [e3, eF]
    · rw [e3, eF]

/-- Witness for C5: from the fresh state, `getPokemon 7` twice, a failed
settlement, and the re-request all behave as claimed. -/
theorem failure_not_cached_witness :
    (getPokemon initialFetchState 7).2 = .pending 0 ∧
    (getPokemon (getPokemon initialFetchState 7).1 7).2 = .pending 0 ∧
    (settlePokemonFailure (getPokemon initialFetchState 7).1 7).pokemonCache =
      initialFetchState.pokemonCache ∧
    (settlePokemonFailure (getPokemon initialFetchState 7).1 7).activeRequests =
      initialFetchState.activeRequests ∧
    mapGet (settlePokemonFailure (getPokemon initialFetchState 7).1 7).activeRequests
      (toString 7) = none ∧
    (getPokemon (settlePokemonFailure (getPokemon initialFetchState 7).1 7) 7).2 =
      .pending (settlePokemonFailure (getPokemon initialFetchState 7).1 7).nextId ∧
    (getPokemon (settlePokemonFailure (getPokemon initialFetchState 7).1 7) 7).1.requests =
      (settlePokemonFailure (getPokemon initialFetchState 7).1 7).requests ++
        [((settlePokemonFailure (getPokemon initialFetchState 7).1 7).nextId,
          .pokemonReq 7)] :=
  failure_not_cached.1 initialFetchState 7 (by decide) (by decide)

/-- C9: `getPokemon` and `getMove` share the one `activeRequests` map. While
`getPokemon id` is pending under the key `toString id`, a `getMove` whose
move name is that same decimal string is handed the pokemon request's
pending promise (whose logged producer is a `pokemonReq`, not a `moveReq` —
a value of the wrong shape for the move caller) and starts nothing; and vice
versa, a `getPokemon id` issued while such a `getMove` is pending joins the
move request. -/
theorem shared_registry_collision :
    (∀ (s : FetchState) (id : Nat) (url2 : String),
      s.pokemonCache.get (toString id) = none →
      mapGet s.activeRequests (toString id) = none →
      s.moveCache.get (toString id) = none →
      getMove (getPokemon s id).1 url2 (toString id) =
        ((getPokemon s id).1, .pending s.nextId) ∧
      (getPokemon s id).2 = .pending s.nextId ∧
      (s.nextId, ReqKind.pokemonReq id) ∈ (getPokemon s id).1.requests) ∧
    (∀ (s : FetchState) (id : Nat) (url : String),
      s.moveCache.get (toString id) = none →
      mapGet s.activeRequests (toString id) = none →
      s.pokemonCache.get (toString id) = none →
      getPokemon (getMove s url (toString id)).1 id =
        ((getMove s url (toString id)).1, .pending s.nextId) ∧
      (getMove s url (toString id)).2 = .pending s.nextId ∧
      (s.nextId, ReqKind.moveReq url (toString id)) ∈
        (getMove s url (toString id)).1.requests) := by
  constructor
  · intro s id url2 h1 h2 h3
    have e : getPokemon s id =
        (⟨s.pokemonCache, s.moveCache,
          mapSet s.activeRequests (toString id) s.nextId,
          s.requests ++ [(s.nextId, .pokemonReq id)], s.nextId + 1⟩,
          .pending s.nextId) := by
      simp [getPokemon, h1, h2]
    refine ⟨?_, by rw [e], by rw [e]; simp⟩
    rw [e]
    simp [getMove, h3, mapGet_mapSet_self]
  · intro s id url h1 h2 h3
    have e : getMove s url (toString id) =
        (⟨s.pokemonCache, s.moveCache,
          mapSet s.activeRequests (toString id) s.nextId,
          s.requests ++ [(s.nextId, .moveReq url (toString id))], s.nextId + 1⟩,
          .pending s.nextId) := by
      simp [getMove, h1, h2]
    refine ⟨?_, by rw [e], by rw [e]; simp⟩
    rw [e]
    simp [getPokemon, h3, mapGet_mapSet_self]

/-- Witness for C9: a pending `getPokemon 25` makes `getMove` for the move
named "25" join the pokemon request. -/
theorem shared_registry_collision_witness :
    getMove (getPokemon initialFetchState 25).1 "u" (toString 25) =
      ((getPokemon initialFetchState 25).1, .pending 0) ∧
    (getPokemon initialFetchState 25).2 = .pending 0 ∧
    (0, ReqKind.pokemonReq 25) ∈ (getPokemon initialFetchState 25).1.requests :=
  shared_registry_collision.1 initialFetchState 25 "u" (by decide) (by decide) (by decide)

/-- C7: once round 2 has started, round 1's abort signal is set, so when round
1's `getPokemon` promise settles afterwards and round 1 then tries to apply
its results (success or failure), the visible state — the whole `AppState`,
in particular `pokemons`, `error`, `loading` — is left unchanged; yet the
settlement itself still populated the pokemon cache. -/
theorem stale_round_invisible_but_cached (s0 : AppState) (id : Nat) (data : Pokemon)
    (results : List PokemonWithMove) (msg : String) :
    signalAborted
      (settlePokemonSuccessApp (startRound (startRound s0).1).1 id data)
      (startRound s0).2 = true ∧
    applyRoundSuccess
      (settlePokemonSuccessApp (startRound (startRound s0).1).1 id data)
      (startRound s0).2 results =
      settlePokemonSuccessApp (startRound (startRound s0).1).1 id data ∧
    applyRoundFailure
      (settlePokemonSuccessApp (startRound (startRound s0).1).1 id data)
      (startRound s0).2 msg =
      settlePokemonSuccessApp (startRound (startRound s0).1).1 id data ∧
    (settlePokemonSuccessApp (startRound (startRound s0).1).1 id data).fetch.pokemonCache.get
      (toString id) = some data := by
    have hab : signalAborted
        (settlePokemonSuccessApp (startRound (startRound s0).1).1 id data)
        (startRound s0).2 = true := by
      simp [signalAborted, settlePokemonSuccessApp, startRound]
    refine ⟨hab, ?_, ?_, ?_⟩
    · simp [applyRoundSuccess, hab]
    · simp [applyRoundFailure, hab]
    · simp [settlePokemonSuccessApp, settlePokemonSuccess, Cache.get_set_self]

/-- C8: a fetched pokemon with an empty moves list is paired with the
sentinel move named "No moves available" with null power, and the resolution
is the sentinel pair — not a `fetchMove` — so no `getMove` call is made for
it and the round proceeds without failing. -/
theorem empty_moves_sentinel (p : Pokemon) (i : Nat) (h : p.moves = []) :
    resolveMoveForPokemon p i =
      .sentinelPair ⟨p, ⟨"No moves available", none⟩⟩ ∧
    ∀ url name, resolveMoveForPokemon p i ≠ .fetchMove url name := by
  have e : resolveMoveForPokemon p i =
      .sentinelPair ⟨p, ⟨"No moves available", none⟩⟩ := by
    simp [resolveMoveForPokemon, h]
  exact ⟨e, fun url name hne => by rw [e] at hne; exact RoundMoveStep.noConfusion hne⟩

/-- Witness for C8: a concrete moveless pokemon resolves to the sentinel
pair. -/
theorem empty_moves_sentinel_witness :
    resolveMoveForPokemon ⟨"ditto", "sp", []⟩ 3 =
      .sentinelPair ⟨⟨"ditto", "sp", []⟩, ⟨"No moves available", none⟩⟩ :=
  (empty_moves_sentinel ⟨"ditto", "sp", []⟩ 3 rfl).1

/-- Counterexample to C10 as stated: with `maxId = 0` the JS draw
`Math.floor(Math.random() * 0) + 1` is always 1, so the returned id 1 is not
between 1 and `maxId = 0` inclusive. -/
theorem random_ids_counterexample :
    getRandomPokemonIds 1 0 [0] = some [1] ∧ ¬(1 ≤ (0 : Nat)) := by
  decide

/-- Loop invariant for `getRandomPokemonIds`: with `maxId ≥ 1`, if the
accumulated id set is duplicate-free, not yet of size `count`, and within
bounds, then whenever the loop returns it returns exactly `count`
duplicate-free ids in `1 .. maxId`. -/
theorem randIdsLoop_spec (count maxId : Nat) (hm : 1 ≤ maxId) :
    ∀ (randoms ids out : List Nat), ids.Nodup → ids.length ≤ count →
    (∀ x ∈ ids, 1 ≤ x ∧ x ≤ maxId) →
    randIdsLoop count maxId ids randoms = some out →
    out.length = count ∧ out.Nodup ∧ ∀ x ∈ out, 1 ≤ x ∧ x ≤ maxId := by
  intro randoms
  induction randoms with
  | nil =>
    intro ids out hnd hle hbnd hrun
    simp only [randIdsLoop] at hrun
    by_cases hstop : count ≤ ids.length
    · rw [if_pos hstop] at hrun
      obtain rfl : ids = out := by simpa using hrun
      exact ⟨by omega, hnd, hbnd⟩
    · rw [if_neg hstop] at hrun
      simp at hrun
  | cons r rest ih =>
    intro ids out hnd hle hbnd hrun
    simp only [randIdsLoop] at hrun
    by_cases hstop : count ≤ ids.length
    · rw [if_pos hstop] at hrun
      obtain rfl : ids = out := by simpa using hrun
      exact ⟨by omega, hnd, hbnd⟩
    · rw [if_neg hstop] at hrun
      have hdraw : 1 ≤ randomDraw maxId r + 1 ∧ randomDraw maxId r + 1 ≤ maxId := by
        unfold randomDraw
        rw [if_neg (by omega)]
        have := Nat.mod_lt r (show 0 < maxId by omega)
        omega
      apply ih (setAdd ids (randomDraw maxId r + 1)) out
      · unfold setAdd
        by_cases hmem : randomDraw maxId r + 1 ∈ ids
        · rw [if_pos hmem]; exact hnd
        · rw [if_neg hmem]
          simp [List.nodup_append, hnd, hmem]
      · unfold setAdd
        by_cases hmem : randomDraw maxId r + 1 ∈ ids
        · rw [if_pos hmem]; omega
        · rw [if_neg hmem]
          simp only [List.length_append, List.length_cons, List.length_nil]
          omega
      · intro x hx
        unfold setAdd at hx
        by_cases hmem : randomDraw maxId r + 1 ∈ ids
        · rw [if_pos hmem] at hx; exact hbnd x hx
        · rw [if_neg hmem] at hx
          rcases List.mem_append.1 hx with hx | hx
          · exact hbnd x hx
          · obtain rfl : x = randomDraw maxId r + 1 := by simpa using hx
            exact hdraw
      · exact hrun

/-- C10 amended: provided `maxId ≥ 1`, whenever `getRandomPokemonIds` returns
it returns exactly `count` pairwise-distinct ids, each between 1 and `maxId`
inclusive; in particular the two ids of one round (`count = 2`) are
distinct. -/
theorem random_ids_spec (count maxId : Nat) (randoms out : List Nat)
    (hm : 1 ≤ maxId) (hrun : getRandomPokemonIds count maxId randoms = some out) :
    (out.length = count ∧ out.Nodup ∧ ∀ x ∈ out, 1 ≤ x ∧ x ≤ maxId) ∧
    (∀ id1 id2 rest2, count = 2 → out = id1 :: id2 :: rest2 → id1 ≠ id2) := by
  have h := randIdsLoop_spec count maxId hm randoms [] out (by simp) (by simp)
    (by simp) hrun
  refine ⟨h, ?_⟩
  intro id1 id2 rest2 hcount hout
  have hnd := h.2.1
  rw [hout] at hnd
  simp only [List.nodup_cons, List.mem_cons] at hnd
  intro heq
  exact hnd.1 (Or.inl heq)

/-- Witness for C10 amended: draws 0 and 1 against `maxId = 151` give the two
distinct ids 1 and 2. -/
theorem random_ids_spec_witness :
    (([1, 2] : List Nat).length = 2 ∧ ([1, 2] : List Nat).Nodup ∧
      ∀ x ∈ ([1, 2] : List Nat), 1 ≤ x ∧ x ≤ 151) ∧
    (∀ id1 id2 rest2, 2 = 2 → ([1, 2] : List Nat) = id1 :: id2 :: rest2 → id1 ≠ id2) :=
  random_ids_spec 2 151 [0, 1] [1, 2] (by decide) (by decide)
